import Mathlib

/-!
Verification of the liv-msprep Opentrons protocol (`liv_msprep/msprep.py`).

The protocol is embedded shallowly: every call the Python code makes on the
`protocol` / pipette objects (comment, pause, pick_up_tip, distribute, mix,
consolidate, blow_out, flow-rate writes, ...) becomes one constructor of an
event type `Evt`, and each phase function (`_plate`, `_resuspend`, `_mix`,
`_pool`, `_set_flow_rate`, `run`) becomes a Lean function producing the list
of events it issues, parameterized by the same quantities the Python code
reads from the labware (number of source wells, destination rows, the
`_NUM_REPS` replication constant, the derived `pool_col_idx`).
-/

namespace MsPrep

/-- One hardware or logging call issued by the protocol. -/
inductive Evt where
  | setTemperature (t : Nat)
  | comment (s : String)
  | updComment (which : String) (old new : Nat)
  | pause (s : String)
  | resetTipracks
  | pickUpTip
  | dropTip
  | returnTip
  | plateDistribute (vol srcIdx : Nat) (destIdxs : List Nat)
  | resusDistribute (vol : Nat) (destCols : List Nat)
  | resusBlowOut (destCols : List Nat)
  | mixWell (reps vol col : Nat)
  | consolidate (vol : Nat) (srcCols : List Nat) (destCol : Nat)
  | poolBlowOut (destCol : Nat)
  deriving DecidableEq, Repr

/-- Python `range(start, stop, step)` for a non-zero step, as a list. -/
def pyRange (start stop step : Nat) : List Nat :=
  (List.range ((stop - start + step - 1) / step)).map (fun k => start + k * step)

/-- The `_NUM_REPS` constant of the protocol. -/
def NUM_REPS : Nat := 3

/-- The `_SRC_PLATE_LAST` constant of the protocol. -/
def SRC_PLATE_LAST : String := "B1"

/-- Well names of the 24-well source block (4 rows A-D, 6 columns), in the
column-major order that opentrons `Labware.wells()` uses. -/
def srcWellNames : List String :=
  (List.range 6).flatMap (fun c => ["A", "B", "C", "D"].map (fun r => r ++ toString (c + 1)))

/-- `len(dest_plt.rows())` for the 96-well destination plate. -/
def destRowCount : Nat := 8

/-- `len(dest_plt.columns())` for the 96-well destination plate. -/
def destColCount : Nat := 12

/-- `src_plt.wells().index(src_plt[last]) + 1`; `none` models the `KeyError`
raised when `last` is not a well of the source plate. -/
def numSrcOf (last : String) : Option Nat :=
  (srcWellNames.findIdx? (fun w => w == last)).map (· + 1)

/-- `num_repl_wells = len(src_plt.wells()) * _NUM_REPS`. -/
def numReplWellsOf (totalSrc reps : Nat) : Nat := totalSrc * reps

/-- `pool_col_idx = num_repl_wells // len(dest_plt.rows())`. -/
def poolColIdxOf (totalSrc reps rows : Nat) : Nat := numReplWellsOf totalSrc reps / rows

/-- The pool boundary exactly as the spec words it: active source count times
replication factor, integer-divided by the destination rows per column. -/
def specPoolBoundary (numActive reps rows : Nat) : Nat := numActive * reps / rows

/-- `_plate`: one single-channel distribute per active source well, to the
destination wells `range(src_idx, num_repl_wells, len(src_plt.wells()))`. -/
def plateTrace (totalSrc numSrc numReplWells : Nat) : List Evt :=
  (List.range (min numSrc totalSrc)).map
    (fun srcIdx => Evt.plateDistribute 75 srcIdx (pyRange srcIdx numReplWells totalSrc))

/-- The loop bound `min(num_src // len(dest_plt.rows()) + 1, _NUM_REPS)` shared
by `_resuspend`, `_mix` and `_pool`. -/
def numGroups (numSrc rows reps : Nat) : Nat := min (numSrc / rows + 1) reps

/-- `repl_idxs = range(col_idx, pool_col_idx, _NUM_REPS)`: the destination
columns of one replica group. -/
def groupCols (colIdx poolColIdx reps : Nat) : List Nat := pyRange colIdx poolColIdx reps

/-- `_resuspend`: pick up one tip, then per column group a multi-channel
distribute of reagent followed by a blow-out over the group's last column,
then drop the tip. -/
def resuspendTrace (numSrc poolColIdx rows reps : Nat) : List Evt :=
  [Evt.pickUpTip] ++
  (List.range (numGroups numSrc rows reps)).flatMap (fun colIdx =>
    [Evt.resusDistribute 40 (groupCols colIdx poolColIdx reps),
     Evt.resusBlowOut (groupCols colIdx poolColIdx reps)]) ++
  [Evt.dropTip]

/-- `_mix`: per column group, pick up a tip, mix every column of the group
(5 cycles of 15 at the well bottom), then return the tip. -/
def mixTrace (numSrc poolColIdx rows reps : Nat) : List Evt :=
  (List.range (numGroups numSrc rows reps)).flatMap (fun colIdx =>
    [Evt.pickUpTip] ++
    (groupCols colIdx poolColIdx reps).map (fun c => Evt.mixWell 5 15 c) ++
    [Evt.returnTip])

/-- The pipette's flow-rate state (`pipette.flow_rate.{aspirate,dispense,blow_out}`). -/
structure FlowRate where
  aspirate : Nat
  dispense : Nat
  blow_out : Nat
  deriving DecidableEq, Repr

/-- One conditional write of `_set_flow_rate`: Python
`if value and value != old:` logs a comment and writes, else leaves the old
value (`None` and `0` are both falsy). -/
def rateStep (which : String) (old : Nat) (req : Option Nat) : List Evt × Nat :=
  match req with
  | some v => if v ≠ 0 ∧ v ≠ old then ([Evt.updComment which old v], v) else ([], old)
  | none => ([], old)

/-- `_set_flow_rate`: reads the three old rates first, conditionally updates
each, and returns `(events, new state, (old_aspirate, old_dispense, old_blow_out))`. -/
def set_flow_rate (st : FlowRate) (aspirate dispense blow_out : Option Nat) :
    List Evt × FlowRate × Nat × Nat × Nat :=
  let ra := rateStep "aspirate" st.aspirate aspirate
  let rd := rateStep "dispense" st.dispense dispense
  let rb := rateStep "blow_out" st.blow_out blow_out
  (ra.1 ++ rd.1 ++ rb.1, ⟨ra.2, rd.2, rb.2⟩, st.aspirate, st.dispense, st.blow_out)

/-- `_pool`: override aspirate/dispense rates to 50/100, per column group one
consolidate into column `pool_col_idx + col_idx` followed by a blow-out there,
then put the captured old aspirate/dispense rates back through
`_set_flow_rate`. Returns the events and the final flow-rate state. -/
def poolTrace (numSrc poolColIdx rows reps : Nat) (st : FlowRate) : List Evt × FlowRate :=
  let r1 := set_flow_rate st (some 50) (some 100) none
  let body := (List.range (numGroups numSrc rows reps)).flatMap (fun colIdx =>
    [Evt.consolidate 35 (groupCols colIdx poolColIdx reps) (poolColIdx + colIdx),
     Evt.poolBlowOut (poolColIdx + colIdx)])
  let r2 := set_flow_rate r1.2.1 (some r1.2.2.1) (some r1.2.2.2.1) none
  (r1.1 ++ body ++ r2.1, r2.2.1)

/-- `_setup` issues the temperature-module command before anything else. -/
def setupTrace : List Evt := [Evt.setTemperature 4]

/-- `run`: setup, then the four phases with their comments, pauses and
tip-rack resets, in source order. The boolean is `false` when the
`src_plt[_SRC_PLATE_LAST]` lookup fails (Python raises there, after setup). -/
def runTrace (last : String) (st : FlowRate) : List Evt × Bool :=
  match numSrcOf last with
  | none => (setupTrace, false)
  | some numSrc =>
    let totalSrc := srcWellNames.length
    let numReplWells := numReplWellsOf totalSrc NUM_REPS
    let poolColIdx := poolColIdxOf totalSrc NUM_REPS destRowCount
    (setupTrace ++
     [Evt.comment "Plate"] ++ plateTrace totalSrc numSrc numReplWells ++
     [Evt.pause "Put destination in vacuum drier."] ++
     [Evt.comment "Resuspend"] ++ resuspendTrace numSrc poolColIdx destRowCount NUM_REPS ++
     [Evt.resetTipracks] ++
     [Evt.comment "Mix"] ++ mixTrace numSrc poolColIdx destRowCount NUM_REPS ++
     [Evt.resetTipracks] ++
     [Evt.pause "Centrifuge destination (remove bubbles and any particulates)."] ++
     [Evt.comment "Pool"] ++ (poolTrace numSrc poolColIdx destRowCount NUM_REPS st).1,
     true)

/-- Recognizer for tip pick-up events. -/
def isPickUp (e : Evt) : Bool :=
  match e with
  | Evt.pickUpTip => true
  | _ => false

/-- Recognizer for tip drop events. -/
def isDrop (e : Evt) : Bool :=
  match e with
  | Evt.dropTip => true
  | _ => false

/-- Recognizer for tip return events. -/
def isReturn (e : Evt) : Bool :=
  match e with
  | Evt.returnTip => true
  | _ => false

/-- Recognizer for the Resuspend phase's reagent dispenses. -/
def isResusDispense (e : Evt) : Bool :=
  match e with
  | Evt.resusDistribute _ _ => true
  | _ => false

/-- Recognizer for the Mix phase's agitation events. -/
def isMixWell (e : Evt) : Bool :=
  match e with
  | Evt.mixWell _ _ _ => true
  | _ => false

/-- The destination columns of the consolidate events of a trace, in order. -/
def consolidateDestCols (l : List Evt) : List Nat :=
  l.filterMap (fun e =>
    match e with
    | Evt.consolidate _ _ dc => some dc
    | _ => none)

/-! ### Helper lemmas -/

theorem mem_of_getElem?_eq {α : Type _} {l : List α} {n : Nat} {a : α}
    (h : l[n]? = some a) : a ∈ l := by
  rw [List.getElem?_eq_some_iff] at h
  obtain ⟨hn, rfl⟩ := h
  exact List.getElem_mem hn

theorem rateStep_snd (w : String) (old : Nat) (req : Option Nat) :
    (rateStep w old req).2 =
      match req with
      | some v => if v ≠ 0 ∧ v ≠ old then v else old
      | none => old := by
  cases req with
  | none => rfl
  | some v =>
    dsimp only [rateStep]
    split <;> rfl

theorem rateStep_skip (w : String) (old : Nat) (req : Option Nat)
    (h : req = none ∨ req = some 0 ∨ req = some old) :
    rateStep w old req = ([], old) := by
  rcases h with rfl | rfl | rfl <;> simp [rateStep]

theorem rateStep_mem (w : String) (old : Nat) (req : Option Nat) {e : Evt}
    (h : e ∈ (rateStep w old req).1) : ∃ o n, e = Evt.updComment w o n := by
  cases req with
  | none => simp [rateStep] at h
  | some v =>
    dsimp only [rateStep] at h
    split at h
    · simp at h
      exact ⟨old, v, h⟩
    · simp at h

theorem set_flow_rate_mem (st : FlowRate) (a d b : Option Nat) {e : Evt}
    (h : e ∈ (set_flow_rate st a d b).1) :
    (∃ o n, e = Evt.updComment "aspirate" o n) ∨
    (∃ o n, e = Evt.updComment "dispense" o n) ∨
    (∃ o n, e = Evt.updComment "blow_out" o n) := by
  simp only [set_flow_rate, List.mem_append] at h
  rcases h with (h | h) | h
  · exact Or.inl (rateStep_mem _ _ _ h)
  · exact Or.inr (Or.inl (rateStep_mem _ _ _ h))
  · exact Or.inr (Or.inr (rateStep_mem _ _ _ h))

/-! ### C2: the pool boundary formula -/

/-- C2 (counterexample): the spec computes the pool boundary from the number
of ACTIVE source positions, but the code computes it from the total source
capacity: with the protocol's own configuration (marker `B1`, so 2 active
sources, replication 3, 8 destination rows) the code yields
`24 * 3 // 8 = 9` while the spec formula yields `2 * 3 // 8 = 0`. -/
theorem pool_boundary_cex :
    numSrcOf SRC_PLATE_LAST = some 2 ∧
    poolColIdxOf srcWellNames.length NUM_REPS destRowCount = 9 ∧
    specPoolBoundary 2 NUM_REPS destRowCount = 0 ∧
    poolColIdxOf srcWellNames.length NUM_REPS destRowCount ≠
      specPoolBoundary 2 NUM_REPS destRowCount := by
  decide

/-- C2 (amended): the pool boundary equals total source capacity times the
replication factor, integer-divided by the destination rows per column (the
spec formula applied to the TOTAL capacity, not the active count), and it is
at most the number of destination columns whenever the replicate wells fit on
the destination plate. -/
theorem pool_boundary_amended (totalSrc reps rows cols : Nat) (hr : 0 < rows)
    (hcap : totalSrc * reps ≤ rows * cols) :
    poolColIdxOf totalSrc reps rows = specPoolBoundary totalSrc reps rows ∧
    poolColIdxOf totalSrc reps rows ≤ cols := by
  refine ⟨rfl, ?_⟩
  calc poolColIdxOf totalSrc reps rows = totalSrc * reps / rows := rfl
    _ ≤ rows * cols / rows := Nat.div_le_div_right hcap
    _ = cols := Nat.mul_div_cancel_left cols hr

/-- C2 (witness): the amended statement at the protocol's geometry. -/
theorem pool_boundary_amended_witness :
    0 < destRowCount ∧ 24 * NUM_REPS ≤ destRowCount * destColCount ∧
    poolColIdxOf 24 NUM_REPS destRowCount ≤ destColCount :=
  ⟨by decide, by decide,
    (pool_boundary_amended 24 NUM_REPS destRowCount destColCount (by decide) (by decide)).2⟩

/-! ### C3: behaviour with zero active sources -/

/-- C3 (counterexample): with `activeSourceCount = 0` and the protocol's
remaining geometry (pool boundary 9, 8 rows, 3 replicates), the Resuspend
phase is NOT a zero-length plan: it still picks up a tip and issues
dispenses. -/
theorem zero_sources_cex :
    resuspendTrace 0 (poolColIdxOf srcWellNames.length NUM_REPS destRowCount)
      destRowCount NUM_REPS ≠ [] ∧
    Evt.pickUpTip ∈ resuspendTrace 0 (poolColIdxOf srcWellNames.length NUM_REPS destRowCount)
      destRowCount NUM_REPS := by
  decide

/-- C3 (amended): with `activeSourceCount = 0` the Distribute phase is a
zero-length plan, but (for any replication factor ≥ 1) Resuspend, Mix and
Pool each still select `min(0 / rows + 1, R) = 1` column group and issue
hardware calls: Resuspend and Mix pick up a tip and Pool issues a
consolidate. -/
theorem zero_sources_amended (totalSrc numReplWells poolIdx rows reps : Nat)
    (st : FlowRate) (hreps : 1 ≤ reps) :
    plateTrace totalSrc 0 numReplWells = [] ∧
    numGroups 0 rows reps = 1 ∧
    Evt.pickUpTip ∈ resuspendTrace 0 poolIdx rows reps ∧
    Evt.pickUpTip ∈ mixTrace 0 poolIdx rows reps ∧
    Evt.consolidate 35 (groupCols 0 poolIdx reps) poolIdx ∈
      (poolTrace 0 poolIdx rows reps st).1 := by
  have hng : numGroups 0 rows reps = 1 := by
    simp [numGroups, Nat.zero_div, min_eq_left hreps]
  refine ⟨by simp [plateTrace], hng, ?_, ?_, ?_⟩
  · simp [resuspendTrace]
  · simp [mixTrace, hng]
  · simp only [poolTrace, List.mem_append]
    refine Or.inl (Or.inr ?_)
    rw [hng]
    simp [List.mem_flatMap]

/-- C3 (witness): the amended statement at the protocol's geometry. -/
theorem zero_sources_amended_witness :
    1 ≤ NUM_REPS ∧ plateTrace 24 0 72 = [] ∧ numGroups 0 destRowCount NUM_REPS = 1 :=
  ⟨by decide,
    (zero_sources_amended 24 72 9 destRowCount NUM_REPS ⟨300, 300, 300⟩ (by decide)).1,
    (zero_sources_amended 24 72 9 destRowCount NUM_REPS ⟨300, 300, 300⟩ (by decide)).2.1⟩

/-! ### C4: Pool-phase flow-rate restoration -/

/-- C4 (counterexample): the claim quantifies over every starting flow-rate
state, but the restore path goes through the same Python-truthiness guard as
the override: a captured aspirate rate of `0` is falsy, so it is never
written back, and the Pool override of 50 survives the phase. -/
theorem pool_flow_cex :
    ((poolTrace 2 9 destRowCount NUM_REPS ⟨0, 100, 20⟩).2).aspirate = 50 ∧
    ((poolTrace 2 9 destRowCount NUM_REPS ⟨0, 100, 20⟩).2).aspirate ≠
      (FlowRate.mk 0 100 20).aspirate := by
  decide

/-- C4 (amended): for every starting state whose aspirate and dispense rates
are non-zero, the Pool phase restores both rates exactly: after the phase
they equal their pre-phase values, whether or not an override write was
issued. -/
theorem pool_flow_restore (numSrc poolIdx rows reps : Nat) (st : FlowRate)
    (ha : st.aspirate ≠ 0) (hd : st.dispense ≠ 0) :
    ((poolTrace numSrc poolIdx rows reps st).2).aspirate = st.aspirate ∧
    ((poolTrace numSrc poolIdx rows reps st).2).dispense = st.dispense := by
  obtain ⟨a, d, b⟩ := st
  simp only [FlowRate.aspirate, FlowRate.dispense] at ha hd ⊢
  by_cases h50 : a = 50 <;> by_cases h100 : d = 100 <;>
    simp [poolTrace, set_flow_rate, rateStep, h50, h100, ha, hd, Ne.symm]

/-- C4 (witness): the amended statement at a concrete non-zero state. -/
theorem pool_flow_restore_witness :
    (FlowRate.mk 30 40 20).aspirate ≠ 0 ∧
    ((poolTrace 2 9 destRowCount NUM_REPS ⟨30, 40, 20⟩).2).aspirate = 30 :=
  ⟨by decide,
    (pool_flow_restore 2 9 destRowCount NUM_REPS ⟨30, 40, 20⟩ (by decide) (by decide)).1⟩

/-! ### C8: invalid configurations and fail-fast -/

/-- C8 (counterexample): with a "last active position" marker that is not a
well of the source plate, the run fails — but only after setup has already
issued the temperature-module hardware command, refuting "fails before any
hardware action is issued". -/
theorem run_fail_after_hardware_cex :
    numSrcOf "Z9" = none ∧
    (runTrace "Z9" ⟨300, 300, 300⟩).2 = false ∧
    Evt.setTemperature 4 ∈ (runTrace "Z9" ⟨300, 300, 300⟩).1 := by
  decide

/-- C8 (amended): the code performs no explicit configuration validation;
an out-of-bounds marker makes the run fail at the source-index lookup, which
happens before any pipetting action but after the setup step has already
issued the set-temperature hardware command. -/
theorem run_fail_after_setup (last : String) (st : FlowRate)
    (h : numSrcOf last = none) :
    (runTrace last st).2 = false ∧
    (runTrace last st).1 = setupTrace ∧
    Evt.setTemperature 4 ∈ (runTrace last st).1 := by
  simp [runTrace, h, setupTrace]

/-- C8 (witness): the amended statement at the out-of-bounds marker `Z9`. -/
theorem run_fail_after_setup_witness :
    numSrcOf "Z9" = none ∧ (runTrace "Z9" ⟨250, 250, 250⟩).1 = setupTrace :=
  ⟨by decide, (run_fail_after_setup "Z9" ⟨250, 250, 250⟩ (by decide)).2.1⟩

/-! ### C9: `_set_flow_rate` contract -/

/-- C9: `_set_flow_rate` returns the (aspirate, dispense, blow_out) triple as
read before any modification, and a requested override that is absent,
zero, or equal to the current value causes neither a write nor a log comment
for that rate. -/
theorem set_flow_rate_spec (st : FlowRate) (a d b : Option Nat) :
    (set_flow_rate st a d b).2.2 = (st.aspirate, st.dispense, st.blow_out) ∧
    ((a = none ∨ a = some 0 ∨ a = some st.aspirate) →
      ((set_flow_rate st a d b).2.1).aspirate = st.aspirate ∧
      ∀ o n, Evt.updComment "aspirate" o n ∉ (set_flow_rate st a d b).1) ∧
    ((d = none ∨ d = some 0 ∨ d = some st.dispense) →
      ((set_flow_rate st a d b).2.1).dispense = st.dispense ∧
      ∀ o n, Evt.updComment "dispense" o n ∉ (set_flow_rate st a d b).1) ∧
    ((b = none ∨ b = some 0 ∨ b = some st.blow_out) →
      ((set_flow_rate st a d b).2.1).blow_out = st.blow_out ∧
      ∀ o n, Evt.updComment "blow_out" o n ∉ (set_flow_rate st a d b).1) := by
  refine ⟨rfl, ?_, ?_, ?_⟩
  · intro h
    have hskip := rateStep_skip "aspirate" st.aspirate a h
    constructor
    · simp [set_flow_rate, hskip]
    · intro o n hmem
      simp only [set_flow_rate, List.mem_append, hskip] at hmem
      rcases hmem with (hmem | hmem) | hmem
      · simp at hmem
      · obtain ⟨o', n', he⟩ := rateStep_mem _ _ _ hmem
        simp at he
      · obtain ⟨o', n', he⟩ := rateStep_mem _ _ _ hmem
        simp at he
  · intro h
    have hskip := rateStep_skip "dispense" st.dispense d h
    constructor
    · simp [set_flow_rate, hskip]
    · intro o n hmem
      simp only [set_flow_rate, List.mem_append, hskip] at hmem
      rcases hmem with (hmem | hmem) | hmem
      · obtain ⟨o', n', he⟩ := rateStep_mem _ _ _ hmem
        simp at he
      · simp at hmem
      · obtain ⟨o', n', he⟩ := rateStep_mem _ _ _ hmem
        simp at he
  · intro h
    have hskip := rateStep_skip "blow_out" st.blow_out b h
    constructor
    · simp [set_flow_rate, hskip]
    · intro o n hmem
      simp only [set_flow_rate, List.mem_append, hskip] at hmem
      rcases hmem with (hmem | hmem) | hmem
      · obtain ⟨o', n', he⟩ := rateStep_mem _ _ _ hmem
        simp at he
      · obtain ⟨o', n', he⟩ := rateStep_mem _ _ _ hmem
        simp at he
      · simp at hmem

/-- C9 (witness): a call whose aspirate override equals the current value,
whose dispense override is absent and whose blow-out override is zero. -/
theorem set_flow_rate_spec_witness :
    (set_flow_rate ⟨10, 20, 30⟩ (some 10) none (some 0)).2.2 = (10, 20, 30) ∧
    ((set_flow_rate ⟨10, 20, 30⟩ (some 10) none (some 0)).2.1).aspirate = 10 :=
  ⟨(set_flow_rate_spec ⟨10, 20, 30⟩ (some 10) none (some 0)).1,
    ((set_flow_rate_spec ⟨10, 20, 30⟩ (some 10) none (some 0)).2.1
      (Or.inr (Or.inr rfl))).1⟩

/-! ### Helpers for counting over phase loops -/

theorem sum_map_const {α : Type _} (l : List α) (c : Nat) :
    (l.map (fun _ => c)).sum = l.length * c := by
  induction l with
  | nil => simp
  | cons x xs ih => simp [ih, Nat.succ_mul, Nat.add_comm]

theorem countP_flatMap_const (p : Evt → Bool) (n : Nat) (f : Nat → List Evt) (c : Nat)
    (h : ∀ i, (f i).countP p = c) :
    ((List.range n).flatMap f).countP p = n * c := by
  rw [List.countP_flatMap]
  have heq : (List.range n).map (List.countP p ∘ f) = (List.range n).map (fun _ => c) :=
    List.map_congr_left (fun i _ => h i)
  rw [heq, sum_map_const, List.length_range]

theorem consolidateDestCols_set_flow_rate (st : FlowRate) (a d b : Option Nat) :
    consolidateDestCols (set_flow_rate st a d b).1 = [] := by
  rw [consolidateDestCols, List.filterMap_eq_nil_iff]
  intro e he
  rcases set_flow_rate_mem st a d b he with ⟨o, n, rfl⟩ | ⟨o, n, rfl⟩ | ⟨o, n, rfl⟩ <;> rfl

theorem flatMap_singleton_map {α : Type _} (l : List Nat) (g : Nat → α) :
    (l.flatMap (fun i => [g i])) = l.map g := by
  induction l with
  | nil => rfl
  | cons x xs ih => simp [ih]


theorem consolidateDestCols_append (l1 l2 : List Evt) :
    consolidateDestCols (l1 ++ l2) = consolidateDestCols l1 ++ consolidateDestCols l2 :=
  List.filterMap_append l1 l2 _

theorem flatMap_congr {α β : Type _} {l : List α} {f g : α → List β}
    (h : ∀ a ∈ l, f a = g a) : l.flatMap f = l.flatMap g := by
  induction l with
  | nil => rfl
  | cons x xs ih =>
    simp only [List.flatMap_cons, h x (by simp)]
    rw [ih (fun a ha => h a (by simp [ha]))]

theorem mixTrace_countP_pickUp (numSrc poolIdx rows reps : Nat) :
    (mixTrace numSrc poolIdx rows reps).countP isPickUp = numGroups numSrc rows reps := by
  rw [mixTrace, countP_flatMap_const isPickUp _ _ 1 ?_, Nat.mul_one]
  intro i
  rw [List.countP_append, List.countP_append, List.countP_map]
  have h0 : ((groupCols i poolIdx reps).countP (isPickUp ∘ fun c => Evt.mixWell 5 15 c)) = 0 :=
    List.countP_eq_zero.mpr (fun c _ => by simp [Function.comp, isPickUp])
  simp [List.countP_cons, isPickUp, h0]

theorem mixTrace_countP_return (numSrc poolIdx rows reps : Nat) :
    (mixTrace numSrc poolIdx rows reps).countP isReturn = numGroups numSrc rows reps := by
  rw [mixTrace, countP_flatMap_const isReturn _ _ 1 ?_, Nat.mul_one]
  intro i
  rw [List.countP_append, List.countP_append, List.countP_map]
  have h0 : ((groupCols i poolIdx reps).countP (isReturn ∘ fun c => Evt.mixWell 5 15 c)) = 0 :=
    List.countP_eq_zero.mpr (fun c _ => by simp [Function.comp, isReturn])
  simp [List.countP_cons, isReturn, h0]

theorem resuspendTrace_countP_dispense (numSrc poolIdx rows reps : Nat) :
    (resuspendTrace numSrc poolIdx rows reps).countP isResusDispense =
      numGroups numSrc rows reps := by
  rw [resuspendTrace, List.countP_append, List.countP_append,
    countP_flatMap_const isResusDispense _ _ 1 ?_, Nat.mul_one]
  · show ((0 : Nat) + numGroups numSrc rows reps) + 0 = numGroups numSrc rows reps
    omega
  · intro i
    rfl

theorem poolTrace_dest_cols (numSrc poolIdx rows reps : Nat) (st : FlowRate) :
    consolidateDestCols (poolTrace numSrc poolIdx rows reps st).1 =
      (List.range (numGroups numSrc rows reps)).map (fun i => poolIdx + i) := by
  have hstruct : (poolTrace numSrc poolIdx rows reps st).1 =
      ((set_flow_rate st (some 50) (some 100) none).1 ++
      (List.range (numGroups numSrc rows reps)).flatMap (fun colIdx =>
        [Evt.consolidate 35 (groupCols colIdx poolIdx reps) (poolIdx + colIdx),
         Evt.poolBlowOut (poolIdx + colIdx)])) ++
      (set_flow_rate (set_flow_rate st (some 50) (some 100) none).2.1
        (some (set_flow_rate st (some 50) (some 100) none).2.2.1)
        (some (set_flow_rate st (some 50) (some 100) none).2.2.2.1) none).1 := by
    rfl
  rw [hstruct, consolidateDestCols_append, consolidateDestCols_append,
    consolidateDestCols_set_flow_rate, consolidateDestCols_set_flow_rate,
    List.nil_append, List.append_nil, consolidateDestCols, List.filterMap_flatMap]
  rw [flatMap_congr (f := fun colIdx =>
      List.filterMap (fun e =>
        match e with
        | Evt.consolidate _ _ dc => some dc
        | _ => none)
        [Evt.consolidate 35 (groupCols colIdx poolIdx reps) (poolIdx + colIdx),
         Evt.poolBlowOut (poolIdx + colIdx)])
    (g := fun colIdx => [poolIdx + colIdx]) (fun i _ => rfl)]
  exact flatMap_singleton_map _ _

/-! ### C5: tip acquisition and release policy -/

/-- C5 (counterexample): the Mix phase does not acquire a single tip at
phase start — it acquires one tip per selected column group. With the spec's
own Scenario-C geometry (`numSrc = 10`, 8 rows, R = 3, two groups) the Mix
phase issues two tip pick-ups, not one. -/
theorem mix_tips_cex :
    (mixTrace 10 9 destRowCount NUM_REPS).countP isPickUp = 2 ∧ (2 : Nat) ≠ 1 := by
  decide

/-- C5 (amended): on the normal (exception-free) path, Resuspend acquires
exactly one tip, as the first action of the phase, and drops it as the last
action; Mix acquires one tip per selected column group and returns one per
group (so its pick-up count equals the group count, not one). -/
theorem tip_policy (numSrc poolIdx rows reps : Nat) :
    (resuspendTrace numSrc poolIdx rows reps).countP isPickUp = 1 ∧
    (resuspendTrace numSrc poolIdx rows reps).countP isDrop = 1 ∧
    (resuspendTrace numSrc poolIdx rows reps).head? = some Evt.pickUpTip ∧
    (resuspendTrace numSrc poolIdx rows reps).getLast? = some Evt.dropTip ∧
    (mixTrace numSrc poolIdx rows reps).countP isPickUp = numGroups numSrc rows reps ∧
    (mixTrace numSrc poolIdx rows reps).countP isReturn = numGroups numSrc rows reps := by
  refine ⟨?_, ?_, rfl, ?_, mixTrace_countP_pickUp numSrc poolIdx rows reps,
    mixTrace_countP_return numSrc poolIdx rows reps⟩
  · rw [resuspendTrace, List.countP_append, List.countP_append,
      countP_flatMap_const isPickUp _ _ 0 ?_, Nat.mul_zero]
    · show ((1 : Nat) + 0) + 0 = 1
      omega
    · intro i
      rfl
  · rw [resuspendTrace, List.countP_append, List.countP_append,
      countP_flatMap_const isDrop _ _ 0 ?_, Nat.mul_zero]
    · show ((0 : Nat) + 0) + 1 = 1
      omega
    · intro i
      rfl
  · show (Evt.pickUpTip ::
      ((List.range (numGroups numSrc rows reps)).flatMap _ ++ [Evt.dropTip])).getLast? =
      some Evt.dropTip
    rw [← List.cons_append, List.getLast?_concat]

/-! ### C6: column-group selection count and order -/

/-- C6: Resuspend, Mix and Pool each iterate over exactly
`min(numSrc // rows + 1, R)` column groups, in ascending offset order (the
Pool consolidations land on strictly increasing destination columns
`poolColIdx + offset`); for `numSrc = 10`, 8 rows, R = 3 exactly 2 groups are
selected. -/
theorem group_selection (numSrc poolIdx rows reps : Nat) (st : FlowRate) :
    (resuspendTrace numSrc poolIdx rows reps).countP isResusDispense =
      min (numSrc / rows + 1) reps ∧
    (mixTrace numSrc poolIdx rows reps).countP isPickUp =
      min (numSrc / rows + 1) reps ∧
    consolidateDestCols (poolTrace numSrc poolIdx rows reps st).1 =
      (List.range (min (numSrc / rows + 1) reps)).map (fun i => poolIdx + i) ∧
    List.Pairwise (· < ·) (consolidateDestCols (poolTrace numSrc poolIdx rows reps st).1) ∧
    numGroups 10 destRowCount NUM_REPS = 2 := by
  refine ⟨resuspendTrace_countP_dispense numSrc poolIdx rows reps,
    mixTrace_countP_pickUp numSrc poolIdx rows reps,
    poolTrace_dest_cols numSrc poolIdx rows reps st, ?_, by decide⟩
  rw [poolTrace_dest_cols numSrc poolIdx rows reps st]
  exact List.Pairwise.map _ (fun a b hab => Nat.add_lt_add_left hab poolIdx)
    (List.pairwise_lt_range _)

/-! ### C1: the Distribute phase's replicate layout -/

theorem pyRange_count (i T reps : Nat) (hT : 0 < T) (hi : i < T) :
    (T * reps - i + T - 1) / T = reps := by
  rcases Nat.eq_zero_or_pos reps with h0 | hpos
  · subst h0
    have e : T * 0 - i + T - 1 = T - 1 := by omega
    rw [e, Nat.div_eq_of_lt (by omega)]
  · have hTle : T ≤ T * reps := Nat.le_mul_of_pos_right T hpos
    have e : T * reps - i + T - 1 = T * reps + (T - 1 - i) := by omega
    rw [e, Nat.mul_add_div hT, Nat.div_eq_of_lt (by omega)]
    omega

theorem pyRange_stride (i T reps : Nat) (hT : 0 < T) (hi : i < T) :
    pyRange i (T * reps) T = (List.range reps).map (fun k => i + k * T) := by
  rw [pyRange, pyRange_count i T reps hT hi]

theorem mem_stride (T reps i d : Nat) (hT : 0 < T) (hi : i < T) :
    d ∈ (List.range reps).map (fun k => i + k * T) ↔ d % T = i ∧ d < T * reps := by
  simp only [List.mem_map, List.mem_range]
  constructor
  · rintro ⟨k, hk, rfl⟩
    refine ⟨?_, ?_⟩
    · rw [Nat.add_mul_mod_self_right, Nat.mod_eq_of_lt hi]
    · calc i + k * T < (k + 1) * T := by rw [Nat.succ_mul]; omega
        _ ≤ reps * T := Nat.mul_le_mul_right T hk
        _ = T * reps := Nat.mul_comm reps T
  · rintro ⟨hmod, hlt⟩
    refine ⟨d / T, ?_, ?_⟩
    · rw [Nat.div_lt_iff_lt_mul hT, Nat.mul_comm reps T]
      exact hlt
    · conv_rhs => rw [← Nat.div_add_mod d T]
      rw [hmod]
      ring

theorem stride_nodup (T reps i : Nat) (hT : 0 < T) :
    ((List.range reps).map (fun k => i + k * T)).Nodup := by
  refine List.Nodup.map ?_ (List.nodup_range reps)
  intro a b hab
  have hab' : i + a * T = i + b * T := hab
  exact Nat.eq_of_mul_eq_mul_right hT (Nat.add_left_cancel hab')

/-- C1: for every geometry and every active source index `i < numSrc ≤ totalSrc`,
the Distribute phase's `i`-th operation sends the `i`-th source sample to
exactly `R` distinct destination indices `i + k * totalSrc` for `k < R`; the
replicate groups of distinct active sources are pairwise disjoint, and their
union is exactly the active range of the replicate region: the destination
indices `d < totalSrc * R` with `d % totalSrc < numSrc` — no overlaps and no
gaps. -/
theorem plate_partition (totalSrc reps numSrc : Nat)
    (hT : 0 < totalSrc) (hn : numSrc ≤ totalSrc) :
    (∀ i, i < numSrc →
      (plateTrace totalSrc numSrc (totalSrc * reps))[i]? =
        some (Evt.plateDistribute 75 i ((List.range reps).map (fun k => i + k * totalSrc))) ∧
      ((List.range reps).map (fun k => i + k * totalSrc)).length = reps ∧
      ((List.range reps).map (fun k => i + k * totalSrc)).Nodup) ∧
    (∀ i j, i < numSrc → j < numSrc → i ≠ j → ∀ d,
      d ∈ (List.range reps).map (fun k => i + k * totalSrc) →
      d ∉ (List.range reps).map (fun k => j + k * totalSrc)) ∧
    (∀ d, (∃ i, i < numSrc ∧ d ∈ (List.range reps).map (fun k => i + k * totalSrc)) ↔
      d < totalSrc * reps ∧ d % totalSrc < numSrc) := by
  have hmem : ∀ i, i < numSrc → ∀ d,
      (d ∈ (List.range reps).map (fun k => i + k * totalSrc) ↔
        d % totalSrc = i ∧ d < totalSrc * reps) :=
    fun i hi d => mem_stride totalSrc reps i d hT (lt_of_lt_of_le hi hn)
  refine ⟨?_, ?_, ?_⟩
  · intro i hi
    refine ⟨?_, by simp, stride_nodup totalSrc reps i hT⟩
    rw [plateTrace, min_eq_left hn, List.getElem?_map, List.getElem?_range hi,
      ← pyRange_stride i totalSrc reps hT (lt_of_lt_of_le hi hn)]
    rfl
  · intro i j hi hj hij d hdi hdj
    have h1 := ((hmem i hi d).mp hdi).1
    have h2 := ((hmem j hj d).mp hdj).1
    exact hij (h1 ▸ h2)
  · intro d
    constructor
    · rintro ⟨i, hi, hd⟩
      have h := (hmem i hi d).mp hd
      exact ⟨h.2, h.1 ▸ hi⟩
    · rintro ⟨hlt, hmod⟩
      exact ⟨d % totalSrc, hmod, (hmem (d % totalSrc) hmod d).mpr ⟨rfl, hlt⟩⟩

/-- C1 (witness): the second Distribute operation of the protocol's own
geometry (24 source wells, R = 3, marker `B1` hence 2 active sources)
targets destination indices 1, 25 and 49. -/
theorem plate_partition_witness :
    (plateTrace 24 2 (24 * 3))[1]? =
      some (Evt.plateDistribute 75 1 ((List.range 3).map (fun k => 1 + k * 24))) :=
  ((plate_partition 24 3 2 (by decide) (by decide)).1 1 (by decide)).1

/-! ### Trace shape lemmas -/

theorem poolTrace_fst (numSrc poolIdx rows reps : Nat) (st : FlowRate) :
    (poolTrace numSrc poolIdx rows reps st).1 =
      ((set_flow_rate st (some 50) (some 100) none).1 ++
      (List.range (numGroups numSrc rows reps)).flatMap (fun colIdx =>
        [Evt.consolidate 35 (groupCols colIdx poolIdx reps) (poolIdx + colIdx),
         Evt.poolBlowOut (poolIdx + colIdx)])) ++
      (set_flow_rate (set_flow_rate st (some 50) (some 100) none).2.1
        (some (set_flow_rate st (some 50) (some 100) none).2.2.1)
        (some (set_flow_rate st (some 50) (some 100) none).2.2.2.1) none).1 := by
  rfl

theorem plateTrace_shapes {T n r : Nat} {e : Evt} (h : e ∈ plateTrace T n r) :
    ∃ i, e = Evt.plateDistribute 75 i (pyRange i r T) := by
  rw [plateTrace] at h
  obtain ⟨i, _, rfl⟩ := List.mem_map.mp h
  exact ⟨i, rfl⟩

theorem resuspendTrace_shapes {numSrc poolIdx rows reps : Nat} {e : Evt}
    (h : e ∈ resuspendTrace numSrc poolIdx rows reps) :
    e = Evt.pickUpTip ∨ e = Evt.dropTip ∨
    ∃ i, i < numGroups numSrc rows reps ∧
      (e = Evt.resusDistribute 40 (groupCols i poolIdx reps) ∨
       e = Evt.resusBlowOut (groupCols i poolIdx reps)) := by
  rw [resuspendTrace] at h
  simp only [List.mem_append, List.mem_flatMap, List.mem_range, List.mem_cons,
    List.mem_singleton, List.not_mem_nil, or_false] at h
  rcases h with (rfl | ⟨i, hi, hcase⟩) | rfl
  · exact Or.inl rfl
  · exact Or.inr (Or.inr ⟨i, hi, hcase⟩)
  · exact Or.inr (Or.inl rfl)

theorem mixTrace_shapes {numSrc poolIdx rows reps : Nat} {e : Evt}
    (h : e ∈ mixTrace numSrc poolIdx rows reps) :
    e = Evt.pickUpTip ∨ e = Evt.returnTip ∨
    ∃ i, i < numGroups numSrc rows reps ∧
      ∃ c, c ∈ groupCols i poolIdx reps ∧ e = Evt.mixWell 5 15 c := by
  rw [mixTrace] at h
  simp only [List.mem_flatMap, List.mem_range, List.mem_append, List.mem_singleton,
    List.mem_map] at h
  obtain ⟨i, hi, hcase⟩ := h
  rcases hcase with (rfl | ⟨c, hc, rfl⟩) | rfl
  · exact Or.inl rfl
  · exact Or.inr (Or.inr ⟨i, hi, c, hc, rfl⟩)
  · exact Or.inr (Or.inl rfl)

theorem poolTrace_shapes {numSrc poolIdx rows reps : Nat} {st : FlowRate} {e : Evt}
    (h : e ∈ (poolTrace numSrc poolIdx rows reps st).1) :
    (∃ w o n, e = Evt.updComment w o n) ∨
    ∃ i, i < numGroups numSrc rows reps ∧
      (e = Evt.consolidate 35 (groupCols i poolIdx reps) (poolIdx + i) ∨
       e = Evt.poolBlowOut (poolIdx + i)) := by
  rw [poolTrace_fst] at h
  rcases List.mem_append.mp h with h1 | h2
  · rcases List.mem_append.mp h1 with h3 | h4
    · rcases set_flow_rate_mem _ _ _ _ h3 with ⟨o, n, rfl⟩ | ⟨o, n, rfl⟩ | ⟨o, n, rfl⟩ <;>
        exact Or.inl ⟨_, o, n, rfl⟩
    · simp only [List.mem_flatMap, List.mem_range, List.mem_cons, List.mem_singleton,
        List.not_mem_nil, or_false] at h4
      obtain ⟨i, hi, hcase⟩ := h4
      exact Or.inr ⟨i, hi, hcase⟩
  · rcases set_flow_rate_mem _ _ _ _ h2 with ⟨o, n, rfl⟩ | ⟨o, n, rfl⟩ | ⟨o, n, rfl⟩ <;>
      exact Or.inl ⟨_, o, n, rfl⟩

/-! ### C10: selected column groups are non-empty -/

theorem groupCols_ne_nil {g pool reps : Nat} (hg : g < pool) (hreps : 0 < reps) :
    groupCols g pool reps ≠ [] := by
  have hlen : 0 < (groupCols g pool reps).length := by
    rw [groupCols, pyRange, List.length_map, List.length_range]
    have h1 : (1 : Nat) ≤ (pool - g + reps - 1) / reps := by
      rw [Nat.le_div_iff_mul_le hreps]
      omega
    omega
  exact List.ne_nil_of_length_pos hlen

/-- C10 (counterexample): the claim fails for geometries with fewer source
positions than destination rows: with 1 source position, 8 destination rows
and R = 3 the pool boundary is `3 / 8 = 0`, yet the loop still selects
`min(1/8 + 1, 3) = 1` group, so Resuspend issues its blow-out over an EMPTY
column group (an IndexError on `repl_wells[-1]` in the Python source). -/
theorem empty_group_cex :
    numGroups 1 destRowCount NUM_REPS = 1 ∧
    groupCols 0 (poolColIdxOf 1 NUM_REPS destRowCount) NUM_REPS = [] ∧
    Evt.resusBlowOut [] ∈
      resuspendTrace 1 (poolColIdxOf 1 NUM_REPS destRowCount) destRowCount NUM_REPS := by
  decide

/-- C10 (amended): for every geometry whose source capacity is at least the
number of destination rows (as in the protocol: 24 source wells, 8 rows) and
whose pool boundary is derived as in the code, every column group selected by
the Resuspend/Mix/Pool loops starts strictly below the pool boundary and is
therefore non-empty; in particular Resuspend's per-group blow-out and Pool's
consolidation source set never index an empty sequence. -/
theorem selected_groups_nonempty (totalSrc numSrc rows reps poolIdx : Nat) (st : FlowRate)
    (hrow : 0 < rows) (hge : rows ≤ totalSrc)
    (hpool : poolIdx = poolColIdxOf totalSrc reps rows) :
    (∀ cols, Evt.resusBlowOut cols ∈ resuspendTrace numSrc poolIdx rows reps → cols ≠ []) ∧
    (∀ v cols dc, Evt.consolidate v cols dc ∈ (poolTrace numSrc poolIdx rows reps st).1 →
      cols ≠ []) := by
  have hkey : ∀ g, g < numGroups numSrc rows reps → groupCols g poolIdx reps ≠ [] := by
    intro g hg
    have h1 : numGroups numSrc rows reps ≤ reps := min_le_right _ _
    have hreps : 0 < reps := lt_of_le_of_lt (Nat.zero_le g) (lt_of_lt_of_le hg h1)
    have h2 : reps ≤ poolIdx := by
      rw [hpool, poolColIdxOf, numReplWellsOf]
      calc reps = rows * reps / rows := (Nat.mul_div_cancel_left reps hrow).symm
        _ ≤ totalSrc * reps / rows := Nat.div_le_div_right (Nat.mul_le_mul_right reps hge)
    exact groupCols_ne_nil (lt_of_lt_of_le hg (le_trans h1 h2)) hreps
  constructor
  · intro cols hmem
    rcases resuspendTrace_shapes hmem with h | h | ⟨i, hi, h | h⟩
    · simp at h
    · simp at h
    · simp at h
    · injection h with h2
      rw [h2]
      exact hkey i hi
  · intro v cols dc hmem
    rcases poolTrace_shapes hmem with ⟨w, o, n, h⟩ | ⟨i, hi, h | h⟩
    · simp at h
    · injection h with h1 h2 h3
      rw [h2]
      exact hkey i hi
    · simp at h

/-- C10 (witness): the amended statement at the protocol's geometry. -/
theorem selected_groups_nonempty_witness :
    0 < destRowCount ∧ destRowCount ≤ 24 ∧
    9 = poolColIdxOf 24 NUM_REPS destRowCount ∧
    ∀ cols, Evt.resusBlowOut cols ∈ resuspendTrace 2 9 destRowCount NUM_REPS → cols ≠ [] :=
  ⟨by decide, by decide, by decide,
    (selected_groups_nonempty 24 2 destRowCount NUM_REPS 9 ⟨300, 300, 300⟩
      (by decide) (by decide) (by decide)).1⟩

/-! ### C7: phase ordering -/

theorem getElem?_append_ge {l1 l2 : List Evt} {i : Nat} {e : Evt}
    (h : (l1 ++ l2)[i]? = some e) (hnot : e ∉ l1) : l1.length ≤ i := by
  by_contra hlt
  push_neg at hlt
  rw [List.getElem?_append_left hlt] at h
  exact hnot (mem_of_getElem?_eq h)

theorem getElem?_append_lt {l1 l2 : List Evt} {i : Nat} {e : Evt}
    (h : (l1 ++ l2)[i]? = some e) (hnot : e ∉ l2) : i < l1.length := by
  by_contra hge
  push_neg at hge
  rw [List.getElem?_append_right hge] at h
  exact hnot (mem_of_getElem?_eq h)

theorem order_split {P B : List Evt} {i j : Nat} {e f : Evt}
    (hi : (P ++ B)[i]? = some e) (hj : (P ++ B)[j]? = some f)
    (heB : e ∉ B) (hfP : f ∉ P) : i < j := by
  have h1 : i < P.length := getElem?_append_lt hi heB
  have h2 : P.length ≤ j := getElem?_append_ge hj hfP
  omega

/-- C7: the run executes the phases strictly in the order Distribute,
operator checkpoint, Resuspend, Mix, operator checkpoint, Pool (first
conjunct: the run trace is exactly that concatenation, in source order);
every Resuspend dispense precedes every Mix action in the trace (second
conjunct); and every Mix action on a column of group G is preceded by the
Resuspend dispense that covers that column (third conjunct) — a Mix on a
group never precedes the Resuspend of the same group. -/
theorem phase_ordering (last : String) (st : FlowRate) (numSrc : Nat)
    (h : numSrcOf last = some numSrc) :
    (runTrace last st).1 =
      setupTrace ++ [Evt.comment "Plate"] ++
      plateTrace srcWellNames.length numSrc (numReplWellsOf srcWellNames.length NUM_REPS) ++
      [Evt.pause "Put destination in vacuum drier."] ++
      [Evt.comment "Resuspend"] ++
      resuspendTrace numSrc (poolColIdxOf srcWellNames.length NUM_REPS destRowCount)
        destRowCount NUM_REPS ++
      [Evt.resetTipracks] ++ [Evt.comment "Mix"] ++
      mixTrace numSrc (poolColIdxOf srcWellNames.length NUM_REPS destRowCount)
        destRowCount NUM_REPS ++
      [Evt.resetTipracks] ++
      [Evt.pause "Centrifuge destination (remove bubbles and any particulates)."] ++
      [Evt.comment "Pool"] ++
      (poolTrace numSrc (poolColIdxOf srcWellNames.length NUM_REPS destRowCount)
        destRowCount NUM_REPS st).1 ∧
    (∀ (i j v : Nat) (cols : List Nat) (mr mv mc : Nat),
      ((runTrace last st).1)[i]? = some (Evt.resusDistribute v cols) →
      ((runTrace last st).1)[j]? = some (Evt.mixWell mr mv mc) → i < j) ∧
    (∀ mr mv c j : Nat, ((runTrace last st).1)[j]? = some (Evt.mixWell mr mv c) →
      ∃ (i : Nat) (cols : List Nat), i < j ∧
        ((runTrace last st).1)[i]? = some (Evt.resusDistribute 40 cols) ∧ c ∈ cols) := by
  set pool := poolColIdxOf srcWellNames.length NUM_REPS destRowCount with hpool
  set P := setupTrace ++ [Evt.comment "Plate"] ++
      plateTrace srcWellNames.length numSrc (numReplWellsOf srcWellNames.length NUM_REPS) ++
      [Evt.pause "Put destination in vacuum drier."] ++
      [Evt.comment "Resuspend"] ++
      resuspendTrace numSrc pool destRowCount NUM_REPS with hPdef
  set B := [Evt.resetTipracks] ++ [Evt.comment "Mix"] ++
      mixTrace numSrc pool destRowCount NUM_REPS ++
      [Evt.resetTipracks] ++
      [Evt.pause "Centrifuge destination (remove bubbles and any particulates)."] ++
      [Evt.comment "Pool"] ++
      (poolTrace numSrc pool destRowCount NUM_REPS st).1 with hBdef
  have hsplit : (runTrace last st).1 = P ++ B := by
    rw [hPdef, hBdef, hpool]
    simp [runTrace, h, List.append_assoc]
  have hnomixP : ∀ mr mv mc, Evt.mixWell mr mv mc ∉ P := by
    intro mr mv mc hmem
    rw [hPdef] at hmem
    simp only [List.mem_append] at hmem
    rcases hmem with ((((hm | hm) | hm) | hm) | hm) | hm
    · simp [setupTrace] at hm
    · simp at hm
    · obtain ⟨i, heq⟩ := plateTrace_shapes hm
      simp at heq
    · simp at hm
    · simp at hm
    · rcases resuspendTrace_shapes hm with heq | heq | ⟨i, hi, heq | heq⟩ <;> simp at heq
  have hnoresusB : ∀ v cols, Evt.resusDistribute v cols ∉ B := by
    intro v cols hmem
    rw [hBdef] at hmem
    simp only [List.mem_append] at hmem
    rcases hmem with (((((hm | hm) | hm) | hm) | hm) | hm) | hm
    · simp at hm
    · simp at hm
    · rcases mixTrace_shapes hm with heq | heq | ⟨i, hi, c, hc, heq⟩ <;> simp at heq
    · simp at hm
    · simp at hm
    · simp at hm
    · rcases poolTrace_shapes hm with ⟨w, o, n, heq⟩ | ⟨i, hi, heq | heq⟩ <;> simp at heq
  refine ⟨?_, ?_, ?_⟩
  · rw [hsplit, hPdef, hBdef, hpool]
    simp [List.append_assoc]
  · intro i j v cols mr mv mc hres hmix
    rw [hsplit] at hres hmix
    exact order_split hres hmix (hnoresusB v cols) (hnomixP mr mv mc)
  · intro mr mv c j hj
    rw [hsplit] at hj ⊢
    have hjge : P.length ≤ j := getElem?_append_ge hj (hnomixP mr mv c)
    have hmemB : Evt.mixWell mr mv c ∈ B := by
      rcases List.mem_append.mp (mem_of_getElem?_eq hj) with hmP | hmB
      · exact absurd hmP (hnomixP mr mv c)
      · exact hmB
    have hg : ∃ g, g < numGroups numSrc destRowCount NUM_REPS ∧
        c ∈ groupCols g pool NUM_REPS := by
      rw [hBdef] at hmemB
      simp only [List.mem_append] at hmemB
      rcases hmemB with (((((hm | hm) | hm) | hm) | hm) | hm) | hm
      · simp at hm
      · simp at hm
      · rcases mixTrace_shapes hm with heq | heq | ⟨g, hglt, c2, hc2, heq⟩
        · simp at heq
        · simp at heq
        · injection heq with h1 h2 h3
          subst h3
          exact ⟨g, hglt, hc2⟩
      · simp at hm
      · simp at hm
      · simp at hm
      · rcases poolTrace_shapes hm with ⟨w, o, n, heq⟩ | ⟨g, hglt, heq | heq⟩ <;> simp at heq
    obtain ⟨g, hglt, hcg⟩ := hg
    have hmemres : Evt.resusDistribute 40 (groupCols g pool NUM_REPS) ∈
        resuspendTrace numSrc pool destRowCount NUM_REPS := by
      rw [resuspendTrace]
      refine List.mem_append.mpr (Or.inl (List.mem_append.mpr (Or.inr ?_)))
      exact List.mem_flatMap.mpr ⟨g, List.mem_range.mpr hglt, by simp⟩
    have hmemP : Evt.resusDistribute 40 (groupCols g pool NUM_REPS) ∈ P := by
      rw [hPdef]
      exact List.mem_append.mpr (Or.inr hmemres)
    obtain ⟨i, hiP⟩ := List.getElem?_of_mem hmemP
    obtain ⟨hilt, -⟩ := List.getElem?_eq_some_iff.mp hiP
    refine ⟨i, groupCols g pool NUM_REPS, lt_of_lt_of_le hilt hjge, ?_, hcg⟩
    rw [List.getElem?_append_left hilt]
    exact hiP

/-- C7 (witness): the ordering consequence at the protocol's own
configuration (marker `B1`, two active sources). -/
theorem phase_ordering_witness :
    numSrcOf SRC_PLATE_LAST = some 2 ∧
    (∀ (i j v : Nat) (cols : List Nat) (mr mv mc : Nat),
      ((runTrace SRC_PLATE_LAST ⟨300, 300, 300⟩).1)[i]? = some (Evt.resusDistribute v cols) →
      ((runTrace SRC_PLATE_LAST ⟨300, 300, 300⟩).1)[j]? = some (Evt.mixWell mr mv mc) →
      i < j) :=
  ⟨by decide, (phase_ordering SRC_PLATE_LAST ⟨300, 300, 300⟩ 2 (by decide)).2.1⟩

end MsPrep
